import Mathlib

/-!
# Verification of the content-generation routine (`docx_temp/generate_content.py`)

Shallow embedding of `generate_large_content` from the repository source.
The Python routine iterates `i` over `range(2000)` (the spec's `generate(count)`
with `count = 2000` in the default configuration; we keep `count` as the loop
bound parameter), builds a random paragraph text for each index, appends a body
fragment, and appends a heading fragment after the body whenever `i % 50 == 0`.

Randomness: the Python code draws from the global `random` module
(`random.randint(a, b)` — uniform on the inclusive range `[a, b]` — and
`random.choices(string.ascii_lowercase, k=n)` — `n` independent uniform picks
from the 26 lowercase ASCII letters).  We model the pseudo-random source as an
arbitrary stream `g : Nat → Nat` together with a consumption position: each
primitive draw reads one stream value and reduces it into the documented range,
which captures exactly the contract of those library calls (every value lands
in the inclusive range; all claims quantify over every stream).

Strings: Python's `' '.join`, `'\n'.join` and `str.capitalize` are embedded as
recursive functions on Lean `String`/`List Char`; `str.capitalize` upper-cases
the first character and lower-cases the rest, which we model by the ASCII case
maps (all generated content is ASCII).
-/

/-- `string.ascii_lowercase`: the 26 lowercase ASCII letters, in order. -/
def lowercaseLetters : List Char :=
  ['a', 'b', 'c', 'd', 'e', 'f', 'g', 'h', 'i', 'j', 'k', 'l', 'm',
   'n', 'o', 'p', 'q', 'r', 's', 't', 'u', 'v', 'w', 'x', 'y', 'z']

/-- One draw of `random.choices(string.ascii_lowercase, ...)`: the stream value
`m` selects a letter of the population. -/
def letterAt (m : Nat) : Char :=
  lowercaseLetters.getD (m % 26) 'a'

/-- ASCII case map used by Python `str.capitalize` on the first character. -/
def asciiUpper (c : Char) : Char :=
  if 97 ≤ c.toNat ∧ c.toNat ≤ 122 then Char.ofNat (c.toNat - 32) else c

/-- ASCII case map used by Python `str.capitalize` on the remaining characters. -/
def asciiLower (c : Char) : Char :=
  if 65 ≤ c.toNat ∧ c.toNat ≤ 90 then Char.ofNat (c.toNat + 32) else c

/-- `str.capitalize` on the character list: first character upper-cased, the
rest lower-cased. -/
def pyCapitalizeList : List Char → List Char
  | [] => []
  | c :: cs => asciiUpper c :: cs.map asciiLower

/-- Python `str.capitalize` (ASCII fragment, which is all this program uses). -/
def pyCapitalize (s : String) : String :=
  String.mk (pyCapitalizeList s.data)

/-- Python `' '.join(words)`. -/
def joinSp : List String → String
  | [] => ""
  | [w] => w
  | w :: ws => w ++ " " ++ joinSp ws

/-- Python `'\n'.join(content)`. -/
def joinNl : List String → String
  | [] => ""
  | [w] => w
  | w :: ws => w ++ "\n" ++ joinNl ws

/-- `random.randint(a, b)` against stream `g` at position `pos`: one stream
value, reduced into the inclusive range `[a, b]`; returns the draw and the next
position. -/
def randint (g : Nat → Nat) (pos a b : Nat) : Nat × Nat :=
  (a + g pos % (b - a + 1), pos + 1)

/-- `word_len = random.randint(3, 12); word = ''.join(random.choices(string.ascii_lowercase, k=word_len))`. -/
def genWord (g : Nat → Nat) (pos : Nat) : String × Nat :=
  let r := randint g pos 3 12
  (String.mk ((List.range r.1).map (fun t => letterAt (g (r.2 + t)))), r.2 + r.1)

/-- The inner `for k in range(...)` loop: generate `n` words in order. -/
def genWords (g : Nat → Nat) : Nat → Nat → List String × Nat
  | 0, pos => ([], pos)
  | n + 1, pos =>
    let w := genWord g pos
    let ws := genWords g n w.2
    (w.1 :: ws.1, ws.2)

/-- One sentence: `random.randint(8, 20)` words, joined by single spaces,
capitalized, with a period appended
(`sentences.append(' '.join(words).capitalize() + '.')`). -/
def genSentence (g : Nat → Nat) (pos : Nat) : String × Nat :=
  let n := randint g pos 8 20
  let ws := genWords g n.1 n.2
  (pyCapitalize (joinSp ws.1) ++ ".", ws.2)

/-- The `for j in range(...)` loop: generate `n` sentences in order. -/
def genSentences (g : Nat → Nat) : Nat → Nat → List String × Nat
  | 0, pos => ([], pos)
  | n + 1, pos =>
    let s := genSentence g pos
    let ss := genSentences g n s.2
    (s.1 :: ss.1, ss.2)

/-- `paragraph_text = ' '.join(sentences)` with `random.randint(3, 8)` sentences. -/
def genParagraphText (g : Nat → Nat) (pos : Nat) : String × Nat :=
  let n := randint g pos 3 8
  let ss := genSentences g n.1 n.2
  (joinSp ss.1, ss.2)

/-- A fragment appended to `content`: either a body paragraph
(`pStyle Normal`, carrying the section number, the paragraph number and the
random paragraph text) or a section heading (`pStyle Heading2`, carrying the
section number and the subsection number). -/
inductive Fragment where
  | body (sectionNum paraNum : Nat) (text : String)
  | heading (sectionNum subsectionNum : Nat)
deriving DecidableEq, Repr

/-- The markup text of a fragment, exactly as the Python f-strings render it. -/
def Fragment.render : Fragment → String
  | .body sectionNum paraNum text =>
      "        <w:p>\n            <w:pPr>\n                <w:pStyle w:val=\"Normal\"/>\n            </w:pPr>\n            <w:r>\n                <w:t>Section "
        ++ Nat.repr sectionNum ++ ", Paragraph " ++ Nat.repr paraNum ++ ": " ++ text
        ++ " This content is generated to create a large document file for testing purposes. The text contains various combinations of words and sentences to simulate real document content while reaching the target file size.</w:t>\n            </w:r>\n        </w:p>"
  | .heading sectionNum subsectionNum =>
      "        <w:p>\n            <w:pPr>\n                <w:pStyle w:val=\"Heading2\"/>\n            </w:pPr>\n            <w:r>\n                <w:t>Section "
        ++ Nat.repr sectionNum ++ " - Subsection " ++ Nat.repr subsectionNum
        ++ "</w:t>\n            </w:r>\n        </w:p>"

/-- One iteration of the `for i in range(count)` loop on the state
`(content, position)`: compute `section_num = i // 100 + 1` and
`para_num = i % 100 + 1`, generate the paragraph text, append the body
fragment, and if `i % 50 == 0` additionally append the heading fragment
(`Subsection i//50 + 1`) after it. -/
def genStep (g : Nat → Nat) (st : List Fragment × Nat) (i : Nat) : List Fragment × Nat :=
  let pr := genParagraphText g st.2
  let content1 := st.1 ++ [Fragment.body (i / 100 + 1) (i % 100 + 1) pr.1]
  if i % 50 = 0 then
    (content1 ++ [Fragment.heading (i / 100 + 1) (i / 50 + 1)], pr.2)
  else
    (content1, pr.2)

/-- The whole loop, starting from the empty `content` accumulator. -/
def genLoop (g : Nat → Nat) (count : Nat) : List Fragment × Nat :=
  (List.range count).foldl (genStep g) ([], 0)

/-- The fragment sequence built by `generate_large_content` (the source fixes
`count = 2000`; the spec's `generate(count)` makes the loop bound a
parameter). -/
def generateFragments (count : Nat) (g : Nat → Nat) : List Fragment :=
  (genLoop g count).1

/-- `generate_large_content`: `'\n'.join(content)` over the rendered fragments. -/
def generate_large_content (count : Nat) (g : Nat → Nat) : String :=
  joinNl ((generateFragments count g).map Fragment.render)

/-- The loop bound taken as a (possibly negative) integer: Python's
`range(count)` yields no iterations when `count < 0`, which `Int.toNat`
models. -/
def generateLargeContentInt (count : Int) (g : Nat → Nat) : String :=
  generate_large_content count.toNat g

/-- The structure of a fragment: its kind and numbering, with the random text
dropped. -/
inductive FragShape where
  | body (sectionNum paraNum : Nat)
  | heading (sectionNum subsectionNum : Nat)
deriving DecidableEq, Repr

/-- Forget the random text of a fragment. -/
def Fragment.shape : Fragment → FragShape
  | .body s p _ => .body s p
  | .heading s n => .heading s n

/-- Is this fragment a body paragraph? -/
def Fragment.isBody : Fragment → Bool
  | .body _ _ _ => true
  | .heading _ _ => false

/-- Is this fragment a section heading? -/
def Fragment.isHeading : Fragment → Bool
  | .body _ _ _ => false
  | .heading _ _ => true

/-- The paragraph text of a body fragment. -/
def Fragment.bodyText : Fragment → Option String
  | .body _ _ t => some t
  | .heading _ _ => none

/-- The fragments one loop iteration appends, given the paragraph text drawn at
position `pos`. -/
def perIndexFrags (g : Nat → Nat) (i pos : Nat) : List Fragment :=
  Fragment.body (i / 100 + 1) (i % 100 + 1) (genParagraphText g pos).1 ::
    (if i % 50 = 0 then [Fragment.heading (i / 100 + 1) (i / 50 + 1)] else [])

/-- The shapes one loop iteration appends (independent of the stream). -/
def perIndexShapes (i : Nat) : List FragShape :=
  FragShape.body (i / 100 + 1) (i % 100 + 1) ::
    (if i % 50 = 0 then [FragShape.heading (i / 100 + 1) (i / 50 + 1)] else [])

/-- The shape sequence of a run with loop bound `count`. -/
def expectedShapes : Nat → List FragShape
  | 0 => []
  | n + 1 => expectedShapes n ++ perIndexShapes n

/-- A word as the generator draws it: 3–12 lowercase ASCII letters. -/
def IsWordStr (w : String) : Prop :=
  3 ≤ w.length ∧ w.length ≤ 12 ∧ ∀ c ∈ w.data, c ∈ lowercaseLetters

/-- A sentence as the generator draws it: 8–20 words joined by single spaces,
capitalized, with a period appended. -/
def IsSentenceStr (s : String) : Prop :=
  ∃ ws : List String, 8 ≤ ws.length ∧ ws.length ≤ 20 ∧ (∀ w ∈ ws, IsWordStr w) ∧
    s = pyCapitalize (joinSp ws) ++ "."

/-- A paragraph text as the generator draws it: 3–8 sentences joined by single
spaces. -/
def IsParagraphStr (p : String) : Prop :=
  ∃ ss : List String, 3 ≤ ss.length ∧ ss.length ≤ 8 ∧ (∀ s ∈ ss, IsSentenceStr s) ∧
    p = joinSp ss

/-! ## Structural lemmas about the loop -/

lemma genLoop_succ (g : Nat → Nat) (n : Nat) :
    genLoop g (n + 1) = genStep g (genLoop g n) n := by
  unfold genLoop
  rw [List.range_succ, List.foldl_append]
  rfl

lemma genStep_eq (g : Nat → Nat) (st : List Fragment × Nat) (i : Nat) :
    genStep g st i = (st.1 ++ perIndexFrags g i st.2, (genParagraphText g st.2).2) := by
  unfold genStep perIndexFrags
  by_cases h : i % 50 = 0 <;> simp [h]

lemma generateFragments_succ (count : Nat) (g : Nat → Nat) :
    generateFragments (count + 1) g
      = generateFragments count g ++ perIndexFrags g count (genLoop g count).2 := by
  unfold generateFragments
  rw [genLoop_succ, genStep_eq]

lemma shape_perIndexFrags (g : Nat → Nat) (i pos : Nat) :
    (perIndexFrags g i pos).map Fragment.shape = perIndexShapes i := by
  unfold perIndexFrags perIndexShapes
  by_cases h : i % 50 = 0 <;> simp [h, Fragment.shape]

lemma shapes_eq (count : Nat) (g : Nat → Nat) :
    (generateFragments count g).map Fragment.shape = expectedShapes count := by
  induction count with
  | zero => rfl
  | succ n ih =>
    rw [generateFragments_succ, List.map_append, ih, shape_perIndexFrags]
    rfl

lemma countP_isBody_perIndex (g : Nat → Nat) (i pos : Nat) :
    (perIndexFrags g i pos).countP Fragment.isBody = 1 := by
  unfold perIndexFrags
  by_cases h : i % 50 = 0 <;> simp [h, Fragment.isBody]

lemma countP_isHeading_perIndex (g : Nat → Nat) (i pos : Nat) :
    (perIndexFrags g i pos).countP Fragment.isHeading
      = if i % 50 = 0 then 1 else 0 := by
  unfold perIndexFrags
  by_cases h : i % 50 = 0 <;> simp [h, Fragment.isHeading]

lemma countP_isBody_generate (count : Nat) (g : Nat → Nat) :
    (generateFragments count g).countP Fragment.isBody = count := by
  induction count with
  | zero => rfl
  | succ n ih =>
    rw [generateFragments_succ, List.countP_append, ih, countP_isBody_perIndex]

lemma countP_isHeading_generate (count : Nat) (g : Nat → Nat) :
    (generateFragments count g).countP Fragment.isHeading
      = if count = 0 then 0 else (count - 1) / 50 + 1 := by
  induction count with
  | zero => rfl
  | succ n ih =>
    rw [generateFragments_succ, List.countP_append, ih, countP_isHeading_perIndex]
    by_cases h0 : n % 50 = 0 <;> by_cases h1 : n = 0 <;> simp [h0, h1] <;> omega

/-! ## Lemmas about the random text generators -/

lemma randint_fst_le (g : Nat → Nat) (pos a b : Nat) (h : a ≤ b) :
    a ≤ (randint g pos a b).1 ∧ (randint g pos a b).1 ≤ b := by
  have hm : g pos % (b - a + 1) < b - a + 1 := Nat.mod_lt _ (by omega)
  unfold randint
  dsimp
  omega

lemma letterAt_mem (m : Nat) : letterAt m ∈ lowercaseLetters := by
  have h : m % 26 < 26 := Nat.mod_lt _ (by omega)
  have hall : ∀ k, k < 26 → lowercaseLetters.getD k 'a' ∈ lowercaseLetters := by decide
  exact hall _ h

lemma genWord_fst (g : Nat → Nat) (pos : Nat) :
    (genWord g pos).1
      = String.mk ((List.range (randint g pos 3 12).1).map
          (fun t => letterAt (g ((randint g pos 3 12).2 + t)))) := rfl

lemma genWord_spec (g : Nat → Nat) (pos : Nat) : IsWordStr (genWord g pos).1 := by
  have hr := randint_fst_le g pos 3 12 (by omega)
  rw [genWord_fst]
  refine ⟨?_, ?_, ?_⟩
  · simpa [String.length] using hr.1
  · simpa [String.length] using hr.2
  · intro c hc
    rw [show (String.mk ((List.range (randint g pos 3 12).1).map
          (fun t => letterAt (g ((randint g pos 3 12).2 + t))))).data
        = (List.range (randint g pos 3 12).1).map
            (fun t => letterAt (g ((randint g pos 3 12).2 + t))) from rfl] at hc
    rw [List.mem_map] at hc
    obtain ⟨t, _, rfl⟩ := hc
    exact letterAt_mem _

lemma genWords_fst_cons (g : Nat → Nat) (n pos : Nat) :
    (genWords g (n + 1) pos).1
      = (genWord g pos).1 :: (genWords g n (genWord g pos).2).1 := rfl

lemma genWords_spec (g : Nat → Nat) :
    ∀ n pos, ((genWords g n pos).1).length = n ∧ ∀ w ∈ (genWords g n pos).1, IsWordStr w := by
  intro n
  induction n with
  | zero =>
    intro pos
    exact ⟨rfl, by intro w hw; cases hw⟩
  | succ n ih =>
    intro pos
    rw [genWords_fst_cons]
    constructor
    · simp [(ih _).1]
    · intro w hw
      rcases List.mem_cons.mp hw with rfl | hw
      · exact genWord_spec g pos
      · exact (ih _).2 w hw

lemma joinSp_data_chars :
    ∀ ws : List String, (∀ w ∈ ws, ∀ c ∈ w.data, c ∈ lowercaseLetters) →
      ∀ c ∈ (joinSp ws).data, c ∈ lowercaseLetters ∨ c = ' '
  | [], _, c, hc => by cases hc
  | [w], hall, c, hc => Or.inl (hall w (by simp) c hc)
  | w :: w2 :: ws2, hall, c, hc => by
    simp only [joinSp] at hc
    rw [String.data_append, String.data_append,
        show (" " : String).data = [' '] from rfl] at hc
    rcases List.mem_append.mp hc with hc | hc
    · rcases List.mem_append.mp hc with hc | hc
      · exact Or.inl (hall w (by simp) c hc)
      · exact Or.inr (List.mem_singleton.mp hc)
    · exact joinSp_data_chars (w2 :: ws2)
        (fun w hw => hall w (List.mem_cons_of_mem _ hw)) c hc

lemma joinSp_data_head :
    ∀ (w : String) (ws : List String) (c : Char) (cs : List Char), w.data = c :: cs →
      ∃ t, (joinSp (w :: ws)).data = c :: t
  | w, [], c, cs, h => ⟨cs, by rw [show joinSp [w] = w from rfl, h]⟩
  | w, w2 :: ws2, c, cs, h => by
    refine ⟨cs ++ ([' '] ++ (joinSp (w2 :: ws2)).data), ?_⟩
    simp only [joinSp]
    rw [String.data_append, String.data_append, h,
        show (" " : String).data = [' '] from rfl]
    simp

lemma case_facts_letters :
    ∀ c ∈ lowercaseLetters,
      asciiLower c = c ∧ c ≠ '.' ∧ asciiUpper c ≠ '.' ∧
        65 ≤ (asciiUpper c).toNat ∧ (asciiUpper c).toNat ≤ 90 := by decide

lemma pyCapitalizeList_ne_period (l : List Char)
    (h : ∀ c ∈ l, c ∈ lowercaseLetters ∨ c = ' ') :
    ∀ c ∈ pyCapitalizeList l, c ≠ '.' := by
  cases l with
  | nil => intro c hc; cases hc
  | cons a l =>
    intro c hc
    rcases List.mem_cons.mp hc with rfl | hc
    · rcases h a (by simp) with ha | ha
      · exact (case_facts_letters a ha).2.2.1
      · rw [ha]; decide
    · rw [List.mem_map] at hc
      obtain ⟨b, hb, rfl⟩ := hc
      rcases h b (List.mem_cons_of_mem _ hb) with hb2 | hb2
      · rw [(case_facts_letters b hb2).1]
        exact (case_facts_letters b hb2).2.1
      · rw [hb2]; decide

lemma sentence_facts (ws : List String) (hne : ws ≠ [])
    (hw : ∀ w ∈ ws, IsWordStr w) :
    (pyCapitalize (joinSp ws) ++ ".").data.count '.' = 1 ∧
    (pyCapitalize (joinSp ws) ++ ".").data.getLast? = some '.' ∧
    ∃ c t, (pyCapitalize (joinSp ws) ++ ".").data = c :: t ∧
      65 ≤ c.toNat ∧ c.toNat ≤ 90 := by
  rcases ws with _ | ⟨w, ws2⟩
  · exact absurd rfl hne
  obtain ⟨hl3, _, hmem⟩ := hw w (by simp)
  rcases hd : w.data with _ | ⟨c0, cs0⟩
  · exfalso
    rw [show w.length = w.data.length from rfl, hd] at hl3
    simp at hl3
  obtain ⟨t, hjoin⟩ := joinSp_data_head w ws2 c0 cs0 hd
  have hchars : ∀ c ∈ (joinSp (w :: ws2)).data, c ∈ lowercaseLetters ∨ c = ' ' :=
    joinSp_data_chars _ (fun w2 hw2 => (hw w2 hw2).2.2)
  have hdata : (pyCapitalize (joinSp (w :: ws2)) ++ ".").data
      = pyCapitalizeList (joinSp (w :: ws2)).data ++ ['.'] := by
    rw [String.data_append]
    rfl
  refine ⟨?_, ?_, ?_⟩
  · rw [hdata, List.count_append]
    have h0 : ('.') ∉ pyCapitalizeList (joinSp (w :: ws2)).data := by
      intro hmem2
      exact pyCapitalizeList_ne_period _ hchars _ hmem2 rfl
    rw [List.count_eq_zero.mpr h0]
    simp
  · rw [hdata]
    exact List.getLast?_concat _
  · rw [hdata, hjoin]
    refine ⟨asciiUpper c0, t.map asciiLower ++ ['.'], rfl, ?_, ?_⟩
    · exact (case_facts_letters c0 (hmem c0 (by rw [hd]; simp))).2.2.2.1
    · exact (case_facts_letters c0 (hmem c0 (by rw [hd]; simp))).2.2.2.2

lemma genSentence_spec (g : Nat → Nat) (pos : Nat) :
    IsSentenceStr (genSentence g pos).1 := by
  refine ⟨(genWords g (randint g pos 8 20).1 (randint g pos 8 20).2).1, ?_, ?_, ?_, rfl⟩
  · rw [(genWords_spec g _ _).1]
    exact (randint_fst_le g pos 8 20 (by omega)).1
  · rw [(genWords_spec g _ _).1]
    exact (randint_fst_le g pos 8 20 (by omega)).2
  · exact (genWords_spec g _ _).2

lemma genSentences_fst_cons (g : Nat → Nat) (n pos : Nat) :
    (genSentences g (n + 1) pos).1
      = (genSentence g pos).1 :: (genSentences g n (genSentence g pos).2).1 := rfl

lemma genSentences_spec (g : Nat → Nat) :
    ∀ n pos, ((genSentences g n pos).1).length = n ∧
      ∀ s ∈ (genSentences g n pos).1, IsSentenceStr s := by
  intro n
  induction n with
  | zero =>
    intro pos
    exact ⟨rfl, by intro s hs; cases hs⟩
  | succ n ih =>
    intro pos
    rw [genSentences_fst_cons]
    constructor
    · simp [(ih _).1]
    · intro s hs
      rcases List.mem_cons.mp hs with rfl | hs
      · exact genSentence_spec g pos
      · exact (ih _).2 s hs

lemma genParagraphText_spec (g : Nat → Nat) (pos : Nat) :
    IsParagraphStr (genParagraphText g pos).1 := by
  refine ⟨(genSentences g (randint g pos 3 8).1 (randint g pos 3 8).2).1, ?_, ?_, ?_, rfl⟩
  · rw [(genSentences_spec g _ _).1]
    exact (randint_fst_le g pos 3 8 (by omega)).1
  · rw [(genSentences_spec g _ _).1]
    exact (randint_fst_le g pos 3 8 (by omega)).2
  · exact (genSentences_spec g _ _).2

lemma generate_bodyText_isParagraph (count : Nat) (g : Nat → Nat) :
    ∀ f ∈ generateFragments count g, ∀ t, f.bodyText = some t → IsParagraphStr t := by
  induction count with
  | zero => intro f hf; cases hf
  | succ n ih =>
    intro f hf t ht
    rw [generateFragments_succ] at hf
    rcases List.mem_append.mp hf with hf | hf
    · exact ih f hf t ht
    · unfold perIndexFrags at hf
      rcases List.mem_cons.mp hf with rfl | hf
      · rw [show (Fragment.body (n / 100 + 1) (n % 100 + 1)
            (genParagraphText g (genLoop g n).2).1).bodyText
              = some (genParagraphText g (genLoop g n).2).1 from rfl] at ht
        cases ht
        exact genParagraphText_spec g _
      · by_cases h : n % 50 = 0
        · rw [if_pos h] at hf
          rcases List.mem_singleton.mp hf with rfl
          cases ht
        · rw [if_neg h] at hf
          cases hf

/-! ## Ordering lemmas on the shape sequence -/

lemma expectedShapes_succ (n : Nat) :
    expectedShapes (n + 1) = expectedShapes n ++ perIndexShapes n := rfl

lemma expectedShapes_mono (m : Nat) :
    ∀ n : Nat, m ≤ n → ∃ t, expectedShapes n = expectedShapes m ++ t := by
  intro n
  induction n with
  | zero =>
    intro h
    have : m = 0 := Nat.le_zero.mp h
    subst this
    exact ⟨[], rfl⟩
  | succ n ih =>
    intro h
    rcases Nat.lt_or_ge m (n + 1) with h1 | h1
    · obtain ⟨t, ht⟩ := ih (by omega)
      exact ⟨t ++ perIndexShapes n, by
        rw [expectedShapes_succ, ht, List.append_assoc]⟩
    · have : m = n + 1 := by omega
      subst this
      exact ⟨[], by simp⟩

lemma perIndexShapes_of_mult (i : Nat) (h : i % 50 = 0) :
    perIndexShapes i = [FragShape.body (i / 100 + 1) (i % 100 + 1),
      FragShape.heading (i / 100 + 1) (i / 50 + 1)] := by
  unfold perIndexShapes
  rw [if_pos h]

lemma expectedShapes_adjacent (count i : Nat) (hi : i < count) (h50 : i % 50 = 0) :
    ∃ k, (expectedShapes count).get? k
        = some (FragShape.body (i / 100 + 1) (i % 100 + 1)) ∧
      (expectedShapes count).get? (k + 1)
        = some (FragShape.heading (i / 100 + 1) (i / 50 + 1)) := by
  obtain ⟨t, ht⟩ := expectedShapes_mono (i + 1) count hi
  have hsucc : expectedShapes (i + 1)
      = expectedShapes i ++ [FragShape.body (i / 100 + 1) (i % 100 + 1),
          FragShape.heading (i / 100 + 1) (i / 50 + 1)] := by
    rw [expectedShapes_succ, perIndexShapes_of_mult i h50]
  have hlen : (expectedShapes (i + 1)).length = (expectedShapes i).length + 2 := by
    rw [hsucc, List.length_append]
    rfl
  refine ⟨(expectedShapes i).length, ?_, ?_⟩
  · rw [ht, List.get?_append (by omega), hsucc,
        List.get?_append_right (Nat.le_refl _), Nat.sub_self]
    rfl
  · rw [ht, List.get?_append (by omega), hsucc,
        List.get?_append_right (by omega),
        show (expectedShapes i).length + 1 - (expectedShapes i).length = 1 by omega]
    rfl

lemma expectedShapes_head (count : Nat) (h : 0 < count) :
    (expectedShapes count).head? = some (FragShape.body 1 1) := by
  obtain ⟨t, ht⟩ := expectedShapes_mono 1 count h
  rw [ht, show expectedShapes 1
      = [FragShape.body 1 1, FragShape.heading 1 1] from rfl]
  rfl

lemma filter_isBody_shape (count : Nat) (g : Nat → Nat) :
    ((generateFragments count g).filter Fragment.isBody).map Fragment.shape
      = (List.range count).map (fun i => FragShape.body (i / 100 + 1) (i % 100 + 1)) := by
  induction count with
  | zero => rfl
  | succ n ih =>
    rw [generateFragments_succ, List.filter_append, List.map_append, ih,
        List.range_succ, List.map_append]
    congr 1
    unfold perIndexFrags
    by_cases h : n % 50 = 0 <;> simp [h, Fragment.isBody, Fragment.shape]

lemma filter_isHeading_shape (count : Nat) (g : Nat → Nat) :
    ((generateFragments count g).filter Fragment.isHeading).map Fragment.shape
      = ((List.range count).filter (fun i => decide (i % 50 = 0))).map
          (fun i => FragShape.heading (i / 100 + 1) (i / 50 + 1)) := by
  induction count with
  | zero => rfl
  | succ n ih =>
    rw [generateFragments_succ, List.filter_append, List.map_append, ih,
        List.range_succ, List.filter_append, List.map_append]
    congr 1
    unfold perIndexFrags
    by_cases h : n % 50 = 0 <;> simp [h, Fragment.isHeading, Fragment.shape]

/-! ## The claims -/

/-- Claim C1: for every non-negative iteration count (2000 in the default
configuration), the generation routine produces exactly `count` body
fragments, one per index `i` from `0` to `count - 1`. -/
theorem claim_c1 (count : Nat) (g : Nat → Nat) :
    (generateFragments count g).countP Fragment.isBody = count ∧
    ((generateFragments count g).filter Fragment.isBody).map Fragment.shape
      = (List.range count).map (fun i => FragShape.body (i / 100 + 1) (i % 100 + 1)) ∧
    (generateFragments 2000 g).countP Fragment.isBody = 2000 :=
  ⟨countP_isBody_generate count g, filter_isBody_shape count g,
    countP_isBody_generate 2000 g⟩

/-- Claim C2: with the heading interval 50 of the code, the number of heading
fragments equals `(count - 1) / 50 + 1` for `count > 0` and `0` for
`count = 0`; in particular the default run with count 2000 emits exactly 40
heading fragments. -/
theorem claim_c2 (count : Nat) (g : Nat → Nat) :
    (generateFragments count g).countP Fragment.isHeading
      = (if count = 0 then 0 else (count - 1) / 50 + 1) ∧
    (generateFragments 2000 g).countP Fragment.isHeading = 40 := by
  refine ⟨countP_isHeading_generate count g, ?_⟩
  rw [countP_isHeading_generate]
  norm_num

/-- Claim C3 is false of the code: with one iteration the emitted sequence is
the index-0 body fragment FOLLOWED by its heading fragment, so no heading
fragment stands immediately before the index-0 body fragment. -/
theorem claim_c3_counterexample :
    ¬ ∃ k, ((generateFragments 1 (fun _ => 0)).map Fragment.shape).get? k
          = some (FragShape.heading 1 1) ∧
        ((generateFragments 1 (fun _ => 0)).map Fragment.shape).get? (k + 1)
          = some (FragShape.body 1 1) := by
  have he : (generateFragments 1 (fun _ => 0)).map Fragment.shape
      = [FragShape.body 1 1, FragShape.heading 1 1] := by
    rw [shapes_eq]
    rfl
  rintro ⟨k, h1, h2⟩
  rw [he] at h1 h2
  rcases k with _ | _ | k
  · simp [List.get?] at h1
  · simp [List.get?] at h2
  · simp [List.get?] at h1

/-- Claim C3 (amended): in the emitted fragment sequence, a section heading
fragment appears immediately AFTER the body fragment of every index that is a
multiple of 50 (indices 0, 50, 100, …), in addition to that index's own body
fragment. -/
theorem claim_c3_amended (count : Nat) (g : Nat → Nat) (i : Nat)
    (hi : i < count) (h50 : i % 50 = 0) :
    ∃ k, ((generateFragments count g).map Fragment.shape).get? k
        = some (FragShape.body (i / 100 + 1) (i % 100 + 1)) ∧
      ((generateFragments count g).map Fragment.shape).get? (k + 1)
        = some (FragShape.heading (i / 100 + 1) (i / 50 + 1)) := by
  rw [shapes_eq]
  exact expectedShapes_adjacent count i hi h50

/-- Witness for the amended claim C3 at `count = 1`, `i = 0`. -/
theorem claim_c3_amended_witness :
    ∃ k, ((generateFragments 1 (fun _ => 0)).map Fragment.shape).get? k
        = some (FragShape.body 1 1) ∧
      ((generateFragments 1 (fun _ => 0)).map Fragment.shape).get? (k + 1)
        = some (FragShape.heading 1 1) :=
  claim_c3_amended 1 (fun _ => 0) 0 (by decide) (by decide)

/-- Claim C4: in emission order, the body fragment for index `i` carries
section number `i / 100 + 1` and paragraph number `i % 100 + 1`, and the
heading fragment emitted for each index `i` that is a multiple of 50 carries
section number `i / 100 + 1` and subsection number `i / 50 + 1`. -/
theorem claim_c4 (count : Nat) (g : Nat → Nat) :
    ((generateFragments count g).filter Fragment.isBody).map Fragment.shape
      = (List.range count).map (fun i => FragShape.body (i / 100 + 1) (i % 100 + 1)) ∧
    ((generateFragments count g).filter Fragment.isHeading).map Fragment.shape
      = ((List.range count).filter (fun i => decide (i % 50 = 0))).map
          (fun i => FragShape.heading (i / 100 + 1) (i / 50 + 1)) :=
  ⟨filter_isBody_shape count g, filter_isHeading_shape count g⟩

/-- Claim C5: concrete scenarios.  `count = 1` yields exactly two fragments —
the Section 1, Paragraph 1 body and the heading for index 0; `count = 0`
yields the empty output string; `count = 150` yields exactly 150 body
fragments and 3 heading fragments, those of indices 0, 50 and 100. -/
theorem claim_c5 (g : Nat → Nat) :
    (generateFragments 1 g).map Fragment.shape
      = [FragShape.body 1 1, FragShape.heading 1 1] ∧
    generate_large_content 0 g = "" ∧
    (generateFragments 150 g).countP Fragment.isBody = 150 ∧
    (generateFragments 150 g).countP Fragment.isHeading = 3 ∧
    ((generateFragments 150 g).filter Fragment.isHeading).map Fragment.shape
      = [FragShape.heading 1 1, FragShape.heading 1 2, FragShape.heading 2 3] := by
  refine ⟨?_, rfl, countP_isBody_generate 150 g, ?_, ?_⟩
  · rw [shapes_eq]
    rfl
  · rw [countP_isHeading_generate]
    norm_num
  · rw [filter_isHeading_shape]
    rfl

/-- Claim C6: every generated sentence is the single-space join of its words
with the first character upper-cased and exactly one period, at the end. -/
theorem claim_c6 (g : Nat → Nat) (pos : Nat) :
    (∃ ws : List String, ws ≠ [] ∧ (∀ w ∈ ws, IsWordStr w) ∧
      (genSentence g pos).1 = pyCapitalize (joinSp ws) ++ ".") ∧
    ((genSentence g pos).1).data.count '.' = 1 ∧
    ((genSentence g pos).1).data.getLast? = some '.' ∧
    ∃ c t, ((genSentence g pos).1).data = c :: t ∧ 65 ≤ c.toNat ∧ c.toNat ≤ 90 := by
  obtain ⟨ws, h8, h20, hws, heq⟩ := genSentence_spec g pos
  have hne : ws ≠ [] := by
    intro h
    rw [h] at h8
    simp at h8
  obtain ⟨hcount, hlast, hhead⟩ := sentence_facts ws hne hws
  refine ⟨⟨ws, hne, hws, heq⟩, ?_, ?_, ?_⟩
  · rw [heq]; exact hcount
  · rw [heq]; exact hlast
  · rw [heq]; exact hhead

/-- Claim C7: for every random stream, every generated word is 3–12 lowercase
ASCII letters, every sentence has 8–20 words, every paragraph unit has 3–8
sentences, and every body fragment text produced by a run is such a
paragraph. -/
theorem claim_c7 (g : Nat → Nat) (pos : Nat) :
    IsWordStr (genWord g pos).1 ∧ IsSentenceStr (genSentence g pos).1 ∧
    IsParagraphStr (genParagraphText g pos).1 ∧
    ∀ count : Nat, ∀ f ∈ generateFragments count g, ∀ t, f.bodyText = some t →
      IsParagraphStr t :=
  ⟨genWord_spec g pos, genSentence_spec g pos, genParagraphText_spec g pos,
    fun count => generate_bodyText_isParagraph count g⟩

/-- Claim C8: two runs with the same count produce the same number and
ordering of body and heading fragments with the same numbering — the shape
sequences coincide for any two random streams. -/
theorem claim_c8 (count : Nat) (g1 g2 : Nat → Nat) :
    (generateFragments count g1).map Fragment.shape
      = (generateFragments count g2).map Fragment.shape := by
  rw [shapes_eq, shapes_eq]

/-- Claim C9 is false of the code: there is no validation.  At the invalid
count `-1` the routine does not fail with a validation error — it returns the
ordinary (empty) output string, exactly as for count 0. -/
theorem claim_c9_counterexample :
    generateLargeContentInt (-1) (fun _ => 0) = "" := rfl

/-- Claim C9 (amended): the code performs no configuration validation; a
negative count is silently treated as an empty iteration range, producing the
empty output rather than a validation error, and generation is total (the
word/sentence ranges are hard-coded and non-empty). -/
theorem claim_c9_amended (count : Int) (g : Nat → Nat) (h : count < 0) :
    generateLargeContentInt count g = "" := by
  unfold generateLargeContentInt
  rw [show count.toNat = 0 from Int.toNat_eq_zero.mpr (le_of_lt h)]
  rfl

/-- Witness for the amended claim C9 at count `-1`. -/
theorem claim_c9_amended_witness :
    (-1 : Int) < 0 ∧ generateLargeContentInt (-1) (fun _ => 0) = "" :=
  ⟨by decide, claim_c9_amended (-1) (fun _ => 0) (by decide)⟩

/-- Claim C10 (implicit): for every index `i` that is a multiple of 50, the
heading fragment is appended immediately after the body fragment for index
`i`, consistently for all such indices, and the first fragment of any
non-empty output is a body fragment. -/
theorem claim_c10 (count : Nat) (g : Nat → Nat) (h : 0 < count) :
    ((generateFragments count g).map Fragment.shape).head?
      = some (FragShape.body 1 1) ∧
    ∀ i, i < count → i % 50 = 0 →
      ∃ k, ((generateFragments count g).map Fragment.shape).get? k
          = some (FragShape.body (i / 100 + 1) (i % 100 + 1)) ∧
        ((generateFragments count g).map Fragment.shape).get? (k + 1)
          = some (FragShape.heading (i / 100 + 1) (i / 50 + 1)) := by
  rw [shapes_eq]
  exact ⟨expectedShapes_head count h,
    fun i hi h50 => expectedShapes_adjacent count i hi h50⟩

/-- Witness for claim C10 at `count = 1`. -/
theorem claim_c10_witness :
    ((generateFragments 1 (fun _ => 0)).map Fragment.shape).head?
      = some (FragShape.body 1 1) :=
  (claim_c10 1 (fun _ => 0) (by decide)).1
